import Mathlib

/-!
Verification of the AI provider fallback orchestration core of the
interview-practice application: the class `AIEvaluationService`
(src/unnamed/part_000) layered over the provider registry
`AIProviderManager`.

Shallow-embedding conventions:

* The registry state (per-provider credentials, the process-wide
  failed-provider set, the forced-provider override) is a `ManagerState`
  record; stateful operations are explicit state-passing functions.
* The source of `AIProviderManager` itself is not available; its registry
  operations are modelled from the spec, and each such definition's doc
  comment says so and cites the spec's wording.
* External provider calls (`evaluateWithGroq`, `evaluateWithOpenAI`,
  `evaluateWithGemini`, `generateRawText`) are remote-service invocations;
  they are embedded as result oracles `Provider → ... → ProviderResult α`
  supplied as parameters to the orchestration entry points.
* A thrown JS `Error` from a provider client is a `ProviderError` (its
  `message` string and optional `limitInfo` field).  Errors thrown by the
  orchestrator itself are embedded as the error taxonomy `OrchError`;
  `OrchError.AllProvidersFailed m` embeds the throw of
  "All AI providers failed. Last error: ..." carrying the interpolated
  last provider error message `m`.
* Each orchestration call returns an `OrchTrace`: its result together
  with the ordered list of providers whose client was invoked and the
  ordered list of `showLimitWarning` invocations (the observable
  side-effect notifications), so that invocation order, first-success
  short-circuiting and notification arguments are provable facts.
-/

/-- The provider identity tags handled by `getProviderStatus` and the
evaluation switch (lines 102-109, 134-140 of the source). -/
inductive Provider where
  | groq
  | openai
  | gemini
deriving DecidableEq, Repr, Fintype

/-- Rate/quota limit metadata attached to a provider failure
(the `error.limitInfo` field inspected at lines 52 and 114). -/
structure LimitInfo where
  reason : String
  retryAfter : Option Nat := none
deriving DecidableEq, Repr

/-- A provider-specific failure: the thrown error's `message` and the
optional `limitInfo` attached to it. -/
structure ProviderError where
  message : String
  limitInfo : Option LimitInfo := none
deriving DecidableEq, Repr

/-- Outcome of one provider-client call: a value or a thrown error. -/
abbrev ProviderResult (α : Type) := Except ProviderError α

/-- The evaluation request (question, answer, rating mode, evaluation
type); opaque to the orchestrator, which only forwards it. -/
structure EvaluationRequest where
  question : String
  answer : String
  ratingMode : String := "lenient"
  evaluationType : String := "simple"
deriving DecidableEq, Repr

/-- The structured payload returned by a successful evaluation call;
opaque to the orchestrator. -/
structure EvaluationResponse where
  score : Nat
  feedback : String
deriving DecidableEq, Repr

/-- The mutable registry state of `AIProviderManager`: which credentials
are configured, the process-wide failed-provider set, and the
forced-provider override (`auto`/null is `none`). -/
structure ManagerState where
  groqKey : Bool := false
  openaiKey : Bool := false
  geminiKey : Bool := false
  failedProviders : List Provider := []
  forcedProvider : Option Provider := none
deriving DecidableEq, Repr

namespace AIProviderManager

/-- Modelled from the spec: `AIProviderManager.hasApiKeys` — "returns
whether a credential is configured per provider. Side-effect free."
Embedded state-passing so that the absence of mutation is a provable
fact rather than a convention. -/
def hasApiKeys (st : ManagerState) : (Provider → Bool) × ManagerState :=
  (fun p =>
    match p with
    | .groq => st.groqKey
    | .openai => st.openaiKey
    | .gemini => st.geminiKey, st)

/-- Modelled from the spec: `isProviderAvailable(identity) -> bool`:
"true iff credential present and identity not in FailedProviderSet". -/
def isProviderAvailable (st : ManagerState) (p : Provider) : Bool :=
  (hasApiKeys st).1 p && !(st.failedProviders.contains p)

/-- Modelled from the spec: `markFailed(identity)` "idempotently adds
identity to FailedProviderSet". -/
def markFailed (st : ManagerState) (p : Provider) : ManagerState :=
  if st.failedProviders.contains p then st
  else { st with failedProviders := p :: st.failedProviders }

/-- Modelled from the spec: `resetFailedProviders()` "clears
FailedProviderSet entirely". -/
def resetFailedProviders (st : ManagerState) : ManagerState :=
  { st with failedProviders := [] }

/-- One provider's entry of the status snapshot. -/
structure ProviderStatus where
  available : Bool
  hasKey : Bool
  failed : Bool
deriving DecidableEq, Repr

/-- Modelled from the spec: `getProviderStatus()` — "full status
snapshot, computed fresh each call". -/
def getProviderStatus (st : ManagerState) :
    (Provider → ProviderStatus) × ManagerState :=
  (fun p =>
    { available := isProviderAvailable st p
      hasKey := (hasApiKeys st).1 p
      failed := st.failedProviders.contains p }, st)

/-- Modelled from the spec: `forceProvider(identity | 'auto' | null)`
"overrides automatic selection ... `'auto'`/null restores default
behavior". -/
def forceProvider (st : ManagerState) (v : Option Provider) : ManagerState :=
  { st with forcedProvider := v }

/-- Modelled from the spec: the FailedProviderSet read used for logging
(lines 22 and 76 of the source). -/
def getFailedProviders (st : ManagerState) : List Provider :=
  st.failedProviders

end AIProviderManager

namespace AIEvaluationService

/-- The TS argument type `'gemini' | 'auto' | null` of
`AIEvaluationService.forceProvider` (line 13 of the source). -/
inductive ForceArg where
  | gemini
  | auto
  | null
deriving DecidableEq, Repr

/-- The `{ gemini: boolean }` record returned by
`AIEvaluationService.hasApiKeys`. -/
structure GeminiKeys where
  gemini : Bool
deriving DecidableEq, Repr

/-- Lines 8-10: `hasApiKeys` projects the registry's credential map to
its gemini entry. -/
def hasApiKeys (st : ManagerState) : GeminiKeys × ManagerState :=
  ({ gemini := (AIProviderManager.hasApiKeys st).1 Provider.gemini },
   (AIProviderManager.hasApiKeys st).2)

/-- Lines 12-15: `forceProvider` delegates to
`AIProviderManager.forceProvider`; the identity case can only be
`gemini` by the argument's type. -/
def forceProvider (st : ManagerState) (provider : ForceArg) : ManagerState :=
  AIProviderManager.forceProvider st
    (match provider with
     | .gemini => some Provider.gemini
     | .auto => none
     | .null => none)

/-- Errors thrown by the orchestration entry points themselves. -/
inductive OrchError where
  /-- Line 34 / line 91: "No AI providers available. ..." thrown when the
  filtered provider list is empty. -/
  | NoProvidersAvailable
  /-- Line 58 / line 121: "All AI providers failed. Last error: ..."
  thrown at the last candidate; carries the interpolated message of the
  last provider error. -/
  | AllProvidersFailed (lastMessage : String)
  /-- Line 66 / line 130: the throw after the candidate loop, reached
  only if the loop falls through without returning or throwing. -/
  | UnreachableFallthrough
deriving DecidableEq, Repr

/-- Observable outcome of one orchestration call: the returned value or
thrown `OrchError`, the ordered list of providers whose client was
invoked, and the ordered `showLimitWarning` invocations (each carrying
the `LimitInfo` and the remaining-provider identity list passed to it). -/
structure OrchTrace (α : Type) where
  result : Except OrchError α
  invoked : List Provider
  warnings : List (LimitInfo × List Provider)
deriving Repr

/-- Lines 24-29 (of `generateContentWithBestAvailable`): the provider
priority list is the single entry `gemini` with availability flag
`availableKeys.gemini && isProviderAvailable('gemini')`, filtered to the
available entries and projected to the identity (`p.name`). -/
def generateCandidates (st : ManagerState) : List Provider :=
  let availableKeys := (hasApiKeys st).1
  let providerPriority : List (Provider × Bool) :=
    [(Provider.gemini,
      availableKeys.gemini
        && AIProviderManager.isProviderAvailable st Provider.gemini)]
  (providerPriority.filter (fun p => p.2)).map (fun p => p.1)

/-- Lines 78-85 (of `evaluateWithBestAvailable`): textually the same
priority-list computation as lines 24-29. -/
def evaluateCandidates (st : ManagerState) : List Provider :=
  let availableKeys := (hasApiKeys st).1
  let providerPriority : List (Provider × Bool) :=
    [(Provider.gemini,
      availableKeys.gemini
        && AIProviderManager.isProviderAvailable st Provider.gemini)]
  (providerPriority.filter (fun p => p.2)).map (fun p => p.1)

/-- Lines 37-64: the candidate loop of `generateContentWithBestAvailable`.
For the candidate at index i with `rest` the candidates after it
(`availableProviders.slice(i + 1)`): invoke `generateRawText`; on success
return the content; on failure, if the error carries `limitInfo`, call
`showLimitWarning(limitInfo, remainingProviders)`; if this was the last
candidate throw the aggregate failure with the last error's message,
otherwise continue with the next candidate.  The `[]` case is the
fallthrough throw after the loop (line 66). -/
def generateLoop (genCall : Provider → ProviderResult String) :
    List Provider → OrchTrace String
  | [] => ⟨.error .UnreachableFallthrough, [], []⟩
  | p :: rest =>
    match genCall p with
    | .ok content => ⟨.ok content, [p], []⟩
    | .error e =>
      let warns : List (LimitInfo × List Provider) :=
        match e.limitInfo with
        | some li => [(li, rest)]
        | none => []
      if rest.isEmpty then
        ⟨.error (.AllProvidersFailed e.message), [p], warns⟩
      else
        let t := generateLoop genCall rest
        ⟨t.result, p :: t.invoked, warns ++ t.warnings⟩

/-- Lines 18-67: `generateContentWithBestAvailable(prompt)`.  Computes
the filtered candidate list; throws `NoProvidersAvailable` when it is
empty (line 34); otherwise runs the candidate loop.  `genCall prompt p`
embeds `AIProviderManager.generateRawText(prompt, p)`; neither the entry
point nor the loop writes any registry state, so the input state is
returned unchanged. -/
def generateContentWithBestAvailable (st : ManagerState) (prompt : String)
    (genCall : String → Provider → ProviderResult String) :
    OrchTrace String × ManagerState :=
  let availableProviders := generateCandidates st
  if availableProviders.isEmpty then
    (⟨.error .NoProvidersAvailable, [], []⟩, st)
  else
    (generateLoop (genCall prompt) availableProviders, st)

/-- Lines 94-127: the candidate loop of `evaluateWithBestAvailable`,
identical in structure to lines 37-64 except that the provider call is
the switch at lines 102-109 dispatching the request on the provider tag
(`evalCall p` embeds that dispatch).  The `[]` case is the fallthrough
throw after the loop (line 130). -/
def evaluateLoop (evalCall : Provider → ProviderResult EvaluationResponse) :
    List Provider → OrchTrace EvaluationResponse
  | [] => ⟨.error .UnreachableFallthrough, [], []⟩
  | p :: rest =>
    match evalCall p with
    | .ok resp => ⟨.ok resp, [p], []⟩
    | .error e =>
      let warns : List (LimitInfo × List Provider) :=
        match e.limitInfo with
        | some li => [(li, rest)]
        | none => []
      if rest.isEmpty then
        ⟨.error (.AllProvidersFailed e.message), [p], warns⟩
      else
        let t := evaluateLoop evalCall rest
        ⟨t.result, p :: t.invoked, warns ++ t.warnings⟩

/-- Lines 70-131: `evaluateWithBestAvailable(request)`.  Computes the
filtered candidate list; throws `NoProvidersAvailable` when it is empty
(line 91); otherwise runs the candidate loop, where `evalCall p request`
embeds the per-provider evaluation calls
`AIProviderManager.evaluateWith{Groq,OpenAI,Gemini}(request)` selected by
the switch.  Neither the entry point nor its loop writes any registry
state (in particular the catch block at lines 110-126 performs no
`markFailed`), so the input state is returned unchanged. -/
def evaluateWithBestAvailable (st : ManagerState)
    (request : EvaluationRequest)
    (evalCall : Provider → EvaluationRequest →
      ProviderResult EvaluationResponse) :
    OrchTrace EvaluationResponse × ManagerState :=
  let availableProviders := evaluateCandidates st
  if availableProviders.isEmpty then
    (⟨.error .NoProvidersAvailable, [], []⟩, st)
  else
    (evaluateLoop (fun p => evalCall p request) availableProviders, st)

/-- Lines 133-140: `getProviderStatus` delegates to
`AIProviderManager.getProviderStatus`. -/
def getProviderStatus (st : ManagerState) :
    (Provider → AIProviderManager.ProviderStatus) × ManagerState :=
  AIProviderManager.getProviderStatus st

/-- Lines 142-145: `resetFailedProviders` delegates to
`AIProviderManager.resetFailedProviders`. -/
def resetFailedProviders (st : ManagerState) : ManagerState :=
  AIProviderManager.resetFailedProviders st

end AIEvaluationService

namespace AIEvaluationService

/-! ### Sample inputs used by witness theorems -/

/-- Registry state with no credentials configured. -/
def stNoKeys : ManagerState := {}

/-- Registry state with only the gemini credential configured and an
empty failed set. -/
def stGeminiKey : ManagerState := { geminiKey := true }

/-- Registry state like `stGeminiKey` but with the forced-provider
override set to gemini. -/
def stGeminiForced : ManagerState :=
  { geminiKey := true, forcedProvider := some Provider.gemini }

/-- A sample evaluation request. -/
def reqSample : EvaluationRequest := { question := "q", answer := "a" }

/-- A sample evaluation response. -/
def respSample : EvaluationResponse := { score := 8, feedback := "good" }

/-- Provider-call oracle that always succeeds. -/
def callOk : Provider → EvaluationRequest → ProviderResult EvaluationResponse :=
  fun _ _ => .ok respSample

/-- Provider-call oracle that always throws a non-limit error. -/
def callTimeout : Provider → EvaluationRequest → ProviderResult EvaluationResponse :=
  fun _ _ => .error { message := "timeout" }

/-- A sample limit-info payload. -/
def liSample : LimitInfo := { reason := "quota" }

/-- Provider-call oracle that always throws a rate-limit error carrying
`liSample`. -/
def callLimited : Provider → EvaluationRequest → ProviderResult EvaluationResponse :=
  fun _ _ => .error { message := "rate", limitInfo := some liSample }

/-- Raw-content oracle that always succeeds. -/
def genOk : String → Provider → ProviderResult String :=
  fun _ _ => .ok "text"

/-- Raw-content oracle that always throws a non-limit error. -/
def genTimeout : String → Provider → ProviderResult String :=
  fun _ _ => .error { message := "timeout" }

/-- Correspondence between the outcome of an evaluation call and the
outcome of a raw-content-generation call on the same provider: both
succeed, or both throw the identical provider error. -/
def sameOutcome {α β : Type} : ProviderResult α → ProviderResult β → Prop
  | .error e, .error e2 => e = e2
  | .ok _, .ok _ => True
  | _, _ => False

/-! ### Helper lemmas about the candidate computation and the loops -/

/-- The key-presence conjunct of the gate at line 80 is redundant: the
availability flag of the single priority entry equals
`isProviderAvailable st gemini`. -/
theorem evaluateCandidates_avail (st : ManagerState) :
    evaluateCandidates st =
      if AIProviderManager.isProviderAvailable st Provider.gemini
        then [Provider.gemini] else [] := by
  unfold evaluateCandidates hasApiKeys AIProviderManager.isProviderAvailable
    AIProviderManager.hasApiKeys
  by_cases h : Provider.gemini ∈ st.failedProviders <;>
    cases st.geminiKey <;> simp [h]

/-- Same computation for `generateContentWithBestAvailable` (line 26). -/
theorem generateCandidates_avail (st : ManagerState) :
    generateCandidates st =
      if AIProviderManager.isProviderAvailable st Provider.gemini
        then [Provider.gemini] else [] := by
  unfold generateCandidates hasApiKeys AIProviderManager.isProviderAvailable
    AIProviderManager.hasApiKeys
  by_cases h : Provider.gemini ∈ st.failedProviders <;>
    cases st.geminiKey <;> simp [h]

/-- The evaluation loop on a single candidate: invoke it once; return
its value on success, otherwise warn when limit info is present and
throw the aggregate failure (the candidate is the last one). -/
theorem evaluateLoop_singleton
    (evalCall : Provider → ProviderResult EvaluationResponse)
    (p : Provider) :
    evaluateLoop evalCall [p] =
      match evalCall p with
      | .ok r => ⟨.ok r, [p], []⟩
      | .error e =>
          ⟨.error (.AllProvidersFailed e.message), [p],
            match e.limitInfo with
            | some li => [(li, [])]
            | none => []⟩ := by
  cases h : evalCall p <;> simp [evaluateLoop, h]

/-- The content-generation loop on a single candidate. -/
theorem generateLoop_singleton
    (genCall : Provider → ProviderResult String) (p : Provider) :
    generateLoop genCall [p] =
      match genCall p with
      | .ok s => ⟨.ok s, [p], []⟩
      | .error e =>
          ⟨.error (.AllProvidersFailed e.message), [p],
            match e.limitInfo with
            | some li => [(li, [])]
            | none => []⟩ := by
  cases h : genCall p <;> simp [generateLoop, h]

/-- Case analysis of one `evaluateWithBestAvailable` call: either gemini
is unavailable and the call fails with `NoProvidersAvailable` having
invoked nothing, or gemini is available and the trace is the loop on the
singleton candidate list. -/
theorem evaluate_trace_cases (st : ManagerState)
    (request : EvaluationRequest)
    (evalCall : Provider → EvaluationRequest →
      ProviderResult EvaluationResponse) :
    (AIProviderManager.isProviderAvailable st Provider.gemini = false ∧
      (evaluateWithBestAvailable st request evalCall).1 =
        ⟨.error .NoProvidersAvailable, [], []⟩) ∨
    (AIProviderManager.isProviderAvailable st Provider.gemini = true ∧
      (evaluateWithBestAvailable st request evalCall).1 =
        evaluateLoop (fun p => evalCall p request) [Provider.gemini]) := by
  cases hav : AIProviderManager.isProviderAvailable st Provider.gemini
  · left
    refine ⟨rfl, ?_⟩
    unfold evaluateWithBestAvailable
    rw [evaluateCandidates_avail, hav]
    simp
  · right
    refine ⟨rfl, ?_⟩
    unfold evaluateWithBestAvailable
    rw [evaluateCandidates_avail, hav]
    simp

/-- Case analysis of one `generateContentWithBestAvailable` call. -/
theorem generate_trace_cases (st : ManagerState) (prompt : String)
    (genCall : String → Provider → ProviderResult String) :
    (AIProviderManager.isProviderAvailable st Provider.gemini = false ∧
      (generateContentWithBestAvailable st prompt genCall).1 =
        ⟨.error .NoProvidersAvailable, [], []⟩) ∨
    (AIProviderManager.isProviderAvailable st Provider.gemini = true ∧
      (generateContentWithBestAvailable st prompt genCall).1 =
        generateLoop (genCall prompt) [Provider.gemini]) := by
  cases hav : AIProviderManager.isProviderAvailable st Provider.gemini
  · left
    refine ⟨rfl, ?_⟩
    unfold generateContentWithBestAvailable
    rw [generateCandidates_avail, hav]
    simp
  · right
    refine ⟨rfl, ?_⟩
    unfold generateContentWithBestAvailable
    rw [generateCandidates_avail, hav]
    simp

/-- Neither entry point writes the registry state. -/
theorem evaluate_state_unchanged (st : ManagerState)
    (request : EvaluationRequest)
    (evalCall : Provider → EvaluationRequest →
      ProviderResult EvaluationResponse) :
    (evaluateWithBestAvailable st request evalCall).2 = st := by
  unfold evaluateWithBestAvailable
  by_cases h : (evaluateCandidates st).isEmpty <;> simp [h]

/-- `generateContentWithBestAvailable` does not write the registry
state either. -/
theorem generate_state_unchanged (st : ManagerState) (prompt : String)
    (genCall : String → Provider → ProviderResult String) :
    (generateContentWithBestAvailable st prompt genCall).2 = st := by
  unfold generateContentWithBestAvailable
  by_cases h : (generateCandidates st).isEmpty <;> simp [h]

end AIEvaluationService

namespace AIEvaluationService

/-! ### Claim theorems -/

/-- C1: for every request, if no configured provider is available
(`isProviderAvailable` is false for every provider),
`evaluateWithBestAvailable` fails with `NoProvidersAvailable` without
invoking any provider client. -/
theorem evaluate_no_providers_available (st : ManagerState)
    (request : EvaluationRequest)
    (evalCall : Provider → EvaluationRequest →
      ProviderResult EvaluationResponse)
    (h : ∀ p, AIProviderManager.isProviderAvailable st p = false) :
    (evaluateWithBestAvailable st request evalCall).1.result =
        Except.error OrchError.NoProvidersAvailable ∧
    (evaluateWithBestAvailable st request evalCall).1.invoked = [] := by
  rcases evaluate_trace_cases st request evalCall with ⟨_, ht⟩ | ⟨hav, _⟩
  · rw [ht]
    exact ⟨rfl, rfl⟩
  · rw [h Provider.gemini] at hav
    cases hav

/-- Witness for C1: with no key configured, the concrete call fails with
`NoProvidersAvailable` and invokes nothing. -/
theorem evaluate_no_providers_available_witness :
    (evaluateWithBestAvailable stNoKeys reqSample callOk).1.result =
        Except.error OrchError.NoProvidersAvailable ∧
    (evaluateWithBestAvailable stNoKeys reqSample callOk).1.invoked = [] :=
  evaluate_no_providers_available stNoKeys reqSample callOk (by decide)

/-- C2: once a forced provider is set via `forceProvider` with an
identity (necessarily `gemini` by the argument type), the candidate list
is the singleton of that identity still gated by availability, only that
provider's client is ever invoked, and if the forced provider is
unavailable the call behaves exactly as if no providers were available. -/
theorem evaluate_forced_provider (st st' : ManagerState)
    (request : EvaluationRequest)
    (evalCall : Provider → EvaluationRequest →
      ProviderResult EvaluationResponse)
    (hforce : st' = forceProvider st ForceArg.gemini) :
    (evaluateCandidates st' =
       if AIProviderManager.isProviderAvailable st' Provider.gemini
         then [Provider.gemini] else []) ∧
    (∀ p, p ∈ (evaluateWithBestAvailable st' request evalCall).1.invoked →
       p = Provider.gemini) ∧
    (AIProviderManager.isProviderAvailable st' Provider.gemini = false →
       (evaluateWithBestAvailable st' request evalCall).1.result =
           Except.error OrchError.NoProvidersAvailable ∧
       (evaluateWithBestAvailable st' request evalCall).1.invoked = []) := by
  subst hforce
  refine ⟨evaluateCandidates_avail _, ?_, ?_⟩
  · intro p hp
    rcases evaluate_trace_cases (forceProvider st ForceArg.gemini) request
        evalCall with ⟨_, ht⟩ | ⟨_, ht⟩
    · rw [ht] at hp
      cases hp
    · rw [ht, evaluateLoop_singleton] at hp
      cases hc : evalCall Provider.gemini request with
      | ok r =>
        rw [hc] at hp
        simpa using hp
      | error e =>
        rw [hc] at hp
        simpa using hp
  · intro hun
    rcases evaluate_trace_cases (forceProvider st ForceArg.gemini) request
        evalCall with ⟨_, ht⟩ | ⟨hav, _⟩
    · rw [ht]
      exact ⟨rfl, rfl⟩
    · rw [hun] at hav
      cases hav

/-- Witness for C2: after forcing gemini on a key-less registry, the
forced provider is unavailable and the concrete call fails with
`NoProvidersAvailable` having invoked nothing. -/
theorem evaluate_forced_provider_witness :
    (evaluateWithBestAvailable (forceProvider stNoKeys ForceArg.gemini)
        reqSample callOk).1.result =
      Except.error OrchError.NoProvidersAvailable ∧
    (evaluateWithBestAvailable (forceProvider stNoKeys ForceArg.gemini)
        reqSample callOk).1.invoked = [] :=
  (evaluate_forced_provider stNoKeys
    (forceProvider stNoKeys ForceArg.gemini) reqSample callOk rfl).2.2
    (by decide)

/-- C9: the throw after the candidate loop of `evaluateWithBestAvailable`
("Unexpected error: No AI providers available", line 130) is unreachable:
no call ever produces it, whatever the registry state and the provider
outcomes. -/
theorem evaluate_fallthrough_unreachable (st : ManagerState)
    (request : EvaluationRequest)
    (evalCall : Provider → EvaluationRequest →
      ProviderResult EvaluationResponse) :
    (evaluateWithBestAvailable st request evalCall).1.result ≠
      Except.error OrchError.UnreachableFallthrough := by
  rcases evaluate_trace_cases st request evalCall with ⟨_, ht⟩ | ⟨_, ht⟩
  · rw [ht]
    intro hc
    cases hc
  · rw [ht, evaluateLoop_singleton]
    cases hc : evalCall Provider.gemini request with
    | ok r =>
      intro hc
      cases hc
    | error e =>
      intro hc
      cases hc

/-- Witness for C9 at a concrete input. -/
theorem evaluate_fallthrough_unreachable_witness :
    (evaluateWithBestAvailable stGeminiKey reqSample callTimeout).1.result ≠
      Except.error OrchError.UnreachableFallthrough :=
  evaluate_fallthrough_unreachable stGeminiKey reqSample callTimeout

end AIEvaluationService

namespace AIEvaluationService

/-- C3: if every candidate of the computed priority list fails, the call
attempts each candidate exactly once in priority order (the invoked list
is the candidate list itself), and the aggregate failure carries the
message of the last candidate's error. -/
theorem evaluate_all_fail (st : ManagerState) (request : EvaluationRequest)
    (evalCall : Provider → EvaluationRequest →
      ProviderResult EvaluationResponse)
    (hne : evaluateCandidates st ≠ [])
    (hfail : ∀ p, p ∈ evaluateCandidates st →
      ∃ e, evalCall p request = Except.error e) :
    (evaluateWithBestAvailable st request evalCall).1.invoked =
        evaluateCandidates st ∧
    ∃ p e, (evaluateCandidates st).getLast? = some p ∧
      evalCall p request = Except.error e ∧
      (evaluateWithBestAvailable st request evalCall).1.result =
        Except.error (OrchError.AllProvidersFailed e.message) := by
  rcases evaluate_trace_cases st request evalCall with ⟨hav, _⟩ | ⟨hav, ht⟩
  · rw [evaluateCandidates_avail, hav] at hne
    simp at hne
  · have hcand : evaluateCandidates st = [Provider.gemini] := by
      rw [evaluateCandidates_avail, hav]
      simp
    obtain ⟨e, he⟩ := hfail Provider.gemini (by rw [hcand]; simp)
    rw [ht, evaluateLoop_singleton, he, hcand]
    exact ⟨rfl, Provider.gemini, e, rfl, he, rfl⟩

/-- Witness for C3: with gemini available and a failing call, the
concrete trace attempts gemini once and the aggregate failure carries
its error message. -/
theorem evaluate_all_fail_witness :
    (evaluateWithBestAvailable stGeminiKey reqSample callTimeout).1.invoked =
        evaluateCandidates stGeminiKey ∧
    ∃ p e, (evaluateCandidates stGeminiKey).getLast? = some p ∧
      callTimeout p reqSample = Except.error e ∧
      (evaluateWithBestAvailable stGeminiKey reqSample callTimeout).1.result =
        Except.error (OrchError.AllProvidersFailed e.message) :=
  evaluate_all_fail stGeminiKey reqSample callTimeout (by decide)
    (fun p _ => ⟨{ message := "timeout" }, rfl⟩)

/-- C4: candidates are tried strictly in priority-list order (the
invoked list is a prefix of the candidate list, with no provider
repeated), and when the call returns a response it is the response of
the last invoked provider, every earlier invoked provider having failed:
the first success is returned immediately and no further candidate is
invoked. -/
theorem evaluate_first_success_wins (st : ManagerState)
    (request : EvaluationRequest)
    (evalCall : Provider → EvaluationRequest →
      ProviderResult EvaluationResponse)
    (r : EvaluationResponse)
    (h : (evaluateWithBestAvailable st request evalCall).1.result =
      Except.ok r) :
    (∃ k, (evaluateWithBestAvailable st request evalCall).1.invoked =
       (evaluateCandidates st).take k) ∧
    (evaluateWithBestAvailable st request evalCall).1.invoked.Nodup ∧
    ∃ p, (evaluateWithBestAvailable st request evalCall).1.invoked.getLast? =
           some p ∧
      evalCall p request = Except.ok r ∧
      ∀ q ∈ (evaluateWithBestAvailable st request evalCall).1.invoked.dropLast,
        ∃ e, evalCall q request = Except.error e := by
  rcases evaluate_trace_cases st request evalCall with ⟨_, ht⟩ | ⟨hav, ht⟩
  · rw [ht] at h
    cases h
  · have hcand : evaluateCandidates st = [Provider.gemini] := by
      rw [evaluateCandidates_avail, hav]
      simp
    rw [ht, evaluateLoop_singleton] at h ⊢
    cases hc : evalCall Provider.gemini request with
    | ok r2 =>
      rw [hc] at h
      have hr : r2 = r := by simpa using h
      subst hr
      refine ⟨⟨1, by simp [hcand]⟩, by simp, Provider.gemini, by simp, hc, ?_⟩
      intro q hq
      simp at hq
    | error e =>
      rw [hc] at h
      simp at h

/-- Witness for C4: a succeeding concrete call invokes exactly gemini
and returns its response. -/
theorem evaluate_first_success_wins_witness :
    (∃ k, (evaluateWithBestAvailable stGeminiKey reqSample callOk).1.invoked =
       (evaluateCandidates stGeminiKey).take k) ∧
    (evaluateWithBestAvailable stGeminiKey reqSample callOk).1.invoked.Nodup ∧
    ∃ p, (evaluateWithBestAvailable stGeminiKey reqSample
            callOk).1.invoked.getLast? = some p ∧
      callOk p reqSample = Except.ok respSample ∧
      ∀ q ∈ (evaluateWithBestAvailable stGeminiKey reqSample
               callOk).1.invoked.dropLast,
        ∃ e, callOk q reqSample = Except.error e :=
  evaluate_first_success_wins stGeminiKey reqSample callOk respSample rfl

end AIEvaluationService

namespace AIEvaluationService

/-- C5 is contradicted by the code: the catch block of
`evaluateWithBestAvailable` (lines 110-126) performs no `markFailed`,
so after a call in which gemini's evaluate throws the non-limit error
"timeout" on a fresh registry with the gemini key configured, the
registry state is unchanged, `getProviderStatus` still reports gemini
as not failed, and yet the call itself did invoke gemini and failed
with the aggregate error carrying "timeout". -/
theorem evaluate_failure_not_marked :
    (evaluateWithBestAvailable stGeminiKey reqSample callTimeout).2 =
        stGeminiKey ∧
    ((getProviderStatus
        (evaluateWithBestAvailable stGeminiKey reqSample callTimeout).2).1
      Provider.gemini).failed = false ∧
    (evaluateWithBestAvailable stGeminiKey reqSample callTimeout).1.result =
      Except.error (OrchError.AllProvidersFailed "timeout") ∧
    Provider.gemini ∈
      (evaluateWithBestAvailable stGeminiKey reqSample
        callTimeout).1.invoked := by
  refine ⟨rfl, rfl, rfl, ?_⟩
  decide

/-- C6: whenever a gemini attempt inside `evaluateWithBestAvailable`
fails, the limit-warning side effect fires exactly once with the
attached `LimitInfo` and the ordered list of candidates not yet
attempted (those after index 0) when the error carries limit info, and
does not fire at all when it carries none. -/
theorem evaluate_limit_warning (st : ManagerState)
    (request : EvaluationRequest)
    (evalCall : Provider → EvaluationRequest →
      ProviderResult EvaluationResponse)
    (e : ProviderError)
    (hmem : Provider.gemini ∈
      (evaluateWithBestAvailable st request evalCall).1.invoked)
    (herr : evalCall Provider.gemini request = Except.error e) :
    (∀ li, e.limitInfo = some li →
       (evaluateWithBestAvailable st request evalCall).1.warnings =
         [(li, (evaluateCandidates st).drop 1)]) ∧
    (e.limitInfo = none →
       (evaluateWithBestAvailable st request evalCall).1.warnings = []) := by
  rcases evaluate_trace_cases st request evalCall with ⟨_, ht⟩ | ⟨hav, ht⟩
  · rw [ht] at hmem
    simp at hmem
  · have hcand : evaluateCandidates st = [Provider.gemini] := by
      rw [evaluateCandidates_avail, hav]
      simp
    rw [ht, evaluateLoop_singleton, herr, hcand]
    constructor
    · intro li hli
      simp [hli]
    · intro hnone
      simp [hnone]

/-- Witness for C6: a gemini failure carrying limit info produces
exactly one warning with that info and the empty remaining list. -/
theorem evaluate_limit_warning_witness :
    (evaluateWithBestAvailable stGeminiKey reqSample
        callLimited).1.warnings =
      [(liSample, (evaluateCandidates stGeminiKey).drop 1)] :=
  (evaluate_limit_warning stGeminiKey reqSample callLimited
      { message := "rate", limitInfo := some liSample }
      (by decide) rfl).1 liSample rfl

end AIEvaluationService

namespace AIEvaluationService

/-- C7: `generateContentWithBestAvailable` follows the identical
candidate-selection and fallback algorithm as
`evaluateWithBestAvailable`: whenever the per-provider calls have
corresponding outcomes (both succeed or both throw the same error), the
two entry points compute the same candidate list, invoke the same
providers in the same order, emit the same limit warnings, throw the
same orchestration errors (empty-list failure and last-candidate
aggregate failure included), succeed exactly together, and leave the
registry state unchanged; they differ only in which provider call is
made per candidate. -/
theorem generate_refines_evaluate (st : ManagerState)
    (request : EvaluationRequest) (prompt : String)
    (evalCall : Provider → EvaluationRequest →
      ProviderResult EvaluationResponse)
    (genCall : String → Provider → ProviderResult String)
    (hcorr : ∀ p, sameOutcome (evalCall p request) (genCall prompt p)) :
    generateCandidates st = evaluateCandidates st ∧
    (generateContentWithBestAvailable st prompt genCall).1.invoked =
      (evaluateWithBestAvailable st request evalCall).1.invoked ∧
    (generateContentWithBestAvailable st prompt genCall).1.warnings =
      (evaluateWithBestAvailable st request evalCall).1.warnings ∧
    (∀ er : OrchError,
      (generateContentWithBestAvailable st prompt genCall).1.result =
          Except.error er ↔
        (evaluateWithBestAvailable st request evalCall).1.result =
          Except.error er) ∧
    ((∃ s, (generateContentWithBestAvailable st prompt genCall).1.result =
        Except.ok s) ↔
      (∃ r, (evaluateWithBestAvailable st request evalCall).1.result =
        Except.ok r)) ∧
    (generateContentWithBestAvailable st prompt genCall).2 = st ∧
    (evaluateWithBestAvailable st request evalCall).2 = st := by
  refine ⟨rfl, ?_⟩
  have hsu := generate_state_unchanged st prompt genCall
  have hse := evaluate_state_unchanged st request evalCall
  rcases generate_trace_cases st prompt genCall with ⟨havg, htg⟩ | ⟨havg, htg⟩ <;>
    rcases evaluate_trace_cases st request evalCall with ⟨have2, hte⟩ | ⟨have2, hte⟩
  · rw [htg, hte]
    refine ⟨rfl, rfl, fun er => ?_, ?_, hsu, hse⟩
    · constructor <;> (intro hx; cases hx; rfl)
    · constructor <;> (rintro ⟨x, hx⟩; cases hx)
  · rw [havg] at have2
    cases have2
  · rw [havg] at have2
    cases have2
  · rw [htg, hte, generateLoop_singleton, evaluateLoop_singleton]
    have hco := hcorr Provider.gemini
    cases hce : evalCall Provider.gemini request with
    | ok r =>
      rw [hce] at hco
      cases hcg : genCall prompt Provider.gemini with
      | ok s =>
        refine ⟨rfl, rfl, fun er => ?_, ?_, hsu, hse⟩
        · constructor <;> (intro hx; cases hx)
        · exact ⟨fun _ => ⟨r, rfl⟩, fun _ => ⟨s, rfl⟩⟩
      | error e2 =>
        rw [hcg] at hco
        simp [sameOutcome] at hco
    | error e =>
      rw [hce] at hco
      cases hcg : genCall prompt Provider.gemini with
      | ok s =>
        rw [hcg] at hco
        simp [sameOutcome] at hco
      | error e2 =>
        rw [hcg] at hco
        have he : e = e2 := hco
        subst he
        refine ⟨rfl, rfl, fun er => ?_, ?_, hsu, hse⟩
        · constructor <;> (intro hx; cases hx; rfl)
        · constructor <;> (rintro ⟨x, hx⟩; cases hx)

/-- Witness for C7 with always-succeeding concrete calls. -/
theorem generate_refines_evaluate_witness :
    generateCandidates stGeminiKey = evaluateCandidates stGeminiKey ∧
    (generateContentWithBestAvailable stGeminiKey "p" genOk).1.invoked =
      (evaluateWithBestAvailable stGeminiKey reqSample callOk).1.invoked ∧
    (generateContentWithBestAvailable stGeminiKey "p" genOk).1.warnings =
      (evaluateWithBestAvailable stGeminiKey reqSample callOk).1.warnings ∧
    (∀ er : OrchError,
      (generateContentWithBestAvailable stGeminiKey "p" genOk).1.result =
          Except.error er ↔
        (evaluateWithBestAvailable stGeminiKey reqSample callOk).1.result =
          Except.error er) ∧
    ((∃ s, (generateContentWithBestAvailable stGeminiKey "p"
        genOk).1.result = Except.ok s) ↔
      (∃ r, (evaluateWithBestAvailable stGeminiKey reqSample
        callOk).1.result = Except.ok r)) ∧
    (generateContentWithBestAvailable stGeminiKey "p" genOk).2 =
        stGeminiKey ∧
    (evaluateWithBestAvailable stGeminiKey reqSample callOk).2 =
        stGeminiKey :=
  generate_refines_evaluate stGeminiKey reqSample "p" callOk genOk
    (fun _ => trivial)

/-- C8: `hasApiKeys` and `getProviderStatus` are side-effect free
reads: each returns the registry state unchanged (failed set, forced
override and credentials included), and each computes its result fresh
from the current credential and failed-set state only — two states
agreeing on credentials and failed set (even with different forced
overrides) yield identical results. -/
theorem status_reads_pure (st st2 : ManagerState)
    (hg : st.groqKey = st2.groqKey) (ho : st.openaiKey = st2.openaiKey)
    (hge : st.geminiKey = st2.geminiKey)
    (hf : st.failedProviders = st2.failedProviders) :
    (hasApiKeys st).2 = st ∧ (getProviderStatus st).2 = st ∧
    (hasApiKeys st).1 = (hasApiKeys st2).1 ∧
    (getProviderStatus st).1 = (getProviderStatus st2).1 := by
  refine ⟨rfl, rfl, ?_, ?_⟩
  · simp [hasApiKeys, AIProviderManager.hasApiKeys, hge]
  · funext p
    cases p <;>
      simp [getProviderStatus, AIProviderManager.getProviderStatus,
        AIProviderManager.isProviderAvailable, AIProviderManager.hasApiKeys,
        hg, ho, hge, hf]

/-- Witness for C8: two concrete states differing only in the forced
override give identical status results, and the reads return the state
unchanged. -/
theorem status_reads_pure_witness :
    (hasApiKeys stGeminiKey).2 = stGeminiKey ∧
    (getProviderStatus stGeminiKey).2 = stGeminiKey ∧
    (hasApiKeys stGeminiKey).1 = (hasApiKeys stGeminiForced).1 ∧
    (getProviderStatus stGeminiKey).1 =
      (getProviderStatus stGeminiForced).1 :=
  status_reads_pure stGeminiKey stGeminiForced rfl rfl rfl rfl

/-- C10: in both entry points the candidate list is at most the
singleton gemini; every limit warning carries the empty
remaining-provider list; and a failure of the (sole) attempted provider
terminates the call with the aggregate failure carrying that error's
message — no fallback to a second provider ever occurs. -/
theorem candidates_at_most_gemini (st : ManagerState)
    (request : EvaluationRequest) (prompt : String)
    (evalCall : Provider → EvaluationRequest →
      ProviderResult EvaluationResponse)
    (genCall : String → Provider → ProviderResult String) :
    (evaluateCandidates st = [] ∨
      evaluateCandidates st = [Provider.gemini]) ∧
    (generateCandidates st = [] ∨
      generateCandidates st = [Provider.gemini]) ∧
    (∀ w ∈ (evaluateWithBestAvailable st request evalCall).1.warnings,
       w.2 = ([] : List Provider)) ∧
    (∀ w ∈ (generateContentWithBestAvailable st prompt genCall).1.warnings,
       w.2 = ([] : List Provider)) ∧
    (∀ e, evalCall Provider.gemini request = Except.error e →
       (evaluateWithBestAvailable st request evalCall).1.invoked ≠ [] →
       (evaluateWithBestAvailable st request evalCall).1.result =
           Except.error (OrchError.AllProvidersFailed e.message) ∧
       (evaluateWithBestAvailable st request evalCall).1.invoked =
         [Provider.gemini]) ∧
    (∀ e, genCall prompt Provider.gemini = Except.error e →
       (generateContentWithBestAvailable st prompt genCall).1.invoked ≠ [] →
       (generateContentWithBestAvailable st prompt genCall).1.result =
           Except.error (OrchError.AllProvidersFailed e.message) ∧
       (generateContentWithBestAvailable st prompt genCall).1.invoked =
         [Provider.gemini]) := by
  refine ⟨?_, ?_, ?_, ?_, ?_, ?_⟩
  · rw [evaluateCandidates_avail]
    cases AIProviderManager.isProviderAvailable st Provider.gemini <;> simp
  · rw [generateCandidates_avail]
    cases AIProviderManager.isProviderAvailable st Provider.gemini <;> simp
  · intro w hw
    rcases evaluate_trace_cases st request evalCall with ⟨_, ht⟩ | ⟨_, ht⟩
    · rw [ht] at hw
      simp at hw
    · rw [ht, evaluateLoop_singleton] at hw
      cases hc : evalCall Provider.gemini request with
      | ok r =>
        rw [hc] at hw
        simp at hw
      | error e =>
        rw [hc] at hw
        cases hli : e.limitInfo with
        | some li =>
          simp [hli] at hw
          rw [hw]
        | none =>
          simp [hli] at hw
  · intro w hw
    rcases generate_trace_cases st prompt genCall with ⟨_, ht⟩ | ⟨_, ht⟩
    · rw [ht] at hw
      simp at hw
    · rw [ht, generateLoop_singleton] at hw
      cases hc : genCall prompt Provider.gemini with
      | ok s =>
        rw [hc] at hw
        simp at hw
      | error e =>
        rw [hc] at hw
        cases hli : e.limitInfo with
        | some li =>
          simp [hli] at hw
          rw [hw]
        | none =>
          simp [hli] at hw
  · intro e he hinv
    rcases evaluate_trace_cases st request evalCall with ⟨_, ht⟩ | ⟨_, ht⟩
    · rw [ht] at hinv
      simp at hinv
    · rw [ht, evaluateLoop_singleton, he]
      exact ⟨rfl, rfl⟩
  · intro e he hinv
    rcases generate_trace_cases st prompt genCall with ⟨_, ht⟩ | ⟨_, ht⟩
    · rw [ht] at hinv
      simp at hinv
    · rw [ht, generateLoop_singleton, he]
      exact ⟨rfl, rfl⟩

/-- Witness for C10: with failing concrete calls, both entry points
terminate on the first failure with the aggregate error and the
singleton invoked list. -/
theorem candidates_at_most_gemini_witness :
    ((evaluateWithBestAvailable stGeminiKey reqSample
        callTimeout).1.result =
      Except.error (OrchError.AllProvidersFailed "timeout") ∧
     (evaluateWithBestAvailable stGeminiKey reqSample
        callTimeout).1.invoked = [Provider.gemini]) ∧
    ((generateContentWithBestAvailable stGeminiKey "p"
        genTimeout).1.result =
      Except.error (OrchError.AllProvidersFailed "timeout") ∧
     (generateContentWithBestAvailable stGeminiKey "p"
        genTimeout).1.invoked = [Provider.gemini]) :=
  ⟨(candidates_at_most_gemini stGeminiKey reqSample "p" callTimeout
      genTimeout).2.2.2.2.1 { message := "timeout" } rfl (by decide),
   (candidates_at_most_gemini stGeminiKey reqSample "p" callTimeout
      genTimeout).2.2.2.2.2 { message := "timeout" } rfl (by decide)⟩

end AIEvaluationService
